import Mathlib

/-!
Verification of the inter-worker request router (the "Router Worker" in
`src/workers/liboqs_worker.js`).  The router keeps backend workers warm,
routes HTMX-style requests by path prefix, correlates request ids with
timeout timers, and adapts two worker protocols (the native envelope
protocol and the legacy liboqs status/log protocol) to one outward
contract.

The embedding below is a direct shallow translation of the router's
JavaScript: JS `Map`s become association lists (`mapGet` / `mapSet` /
`mapDelete` mirror `Map.get` / `Map.set` / `Map.delete`, including
`Map.set`'s update-in-place-or-append ordering), JS strings become Lean
`String`s (a JS string is a sequence of code units, so
`String.prototype.startsWith` is sequence-prefix `jsStartsWith`), the
`setTimeout` / `clearTimeout` machinery becomes an explicit table of live
timers keyed by an allocation counter, and every `postMessage` performed
by a handler is collected into an output list.  Fields that JavaScript
checks with `typeof x === "string"` / `Number.isFinite` / `isObject` are
modelled as `Option` fields (`none` = the check fails).  Wall-clock data
(`ts` / `startedAt`) and the opaque `headers` / `query` / `form` request
payloads forwarded verbatim are not tracked: no routing decision reads
them.
-/

/-- Sequence-prefix test: the meaning of `path.startsWith(route.prefix)`
in JavaScript (JS strings are flat sequences of code units). -/
def jsStartsWith (s pre : String) : Bool :=
  pre.data.isPrefixOf s.data

/-- One global single-character replacement, the meaning of
`String.prototype.replace(/c/g, rep)` when the pattern is one character. -/
def replaceAllChar (c : Char) (rep : String) (s : String) : String :=
  ⟨(s.data.map (fun ch => if ch = c then rep.data else [ch])).flatten⟩

/-- `escapeHtml` from the source: the chained global replacements of
`&`, `<`, `>`, `"` and the apostrophe, innermost (`&`) applied first. -/
def escapeHtml (raw : String) : String :=
  replaceAllChar '\'' "&#39;"
    (replaceAllChar '"' "&quot;"
      (replaceAllChar '>' "&gt;"
        (replaceAllChar '<' "&lt;"
          (replaceAllChar '&' "&amp;" raw))))

/-- Character-wise upper-casing: the meaning of
`String.prototype.toUpperCase()` on the ASCII method strings the router
normalizes. -/
def jsToUpperCase (s : String) : String :=
  ⟨s.data.map Char.toUpper⟩

/-- JS `x || null` on a maybe-string: the empty string is falsy. -/
def jsStrOrNull (o : Option String) : Option String :=
  match o with
  | some str => if str = "" then none else some str
  | none => none

/-- The id validation in `handleHxRequest`:
`typeof msg.id === "string" && msg.id.length > 0 ? msg.id : null`. -/
def validRequestId (o : Option String) : Option String :=
  match o with
  | some str => if str.length > 0 then some str else none
  | none => none

/-- Association-list model of `Map.prototype.get`. -/
def mapGet {κ α : Type} [DecidableEq κ] (m : List (κ × α)) (k : κ) : Option α :=
  match m with
  | [] => none
  | e :: rest => if e.1 = k then some e.2 else mapGet rest k

/-- Association-list model of `Map.prototype.set`: an existing key is
updated in place (JS `Map` keeps the original insertion position),
otherwise the pair is appended. -/
def mapSet {κ α : Type} [DecidableEq κ] (m : List (κ × α)) (k : κ) (v : α) :
    List (κ × α) :=
  match m with
  | [] => [(k, v)]
  | e :: rest => if e.1 = k then (k, v) :: rest else e :: mapSet rest k v

/-- Association-list model of `Map.prototype.delete`. -/
def mapDelete {κ α : Type} [DecidableEq κ] (m : List (κ × α)) (k : κ) :
    List (κ × α) :=
  match m with
  | [] => []
  | e :: rest => if e.1 = k then mapDelete rest k else e :: mapDelete rest k

/-- Association-list model of `Map.prototype.has`. -/
def mapHas {κ α : Type} [DecidableEq κ] (m : List (κ × α)) (k : κ) : Bool :=
  (mapGet m k).isSome

/-- A route binding: `{ prefix, worker }` (`pfx` stands for the source's
`prefix` field, which is not a usable identifier in Lean). -/
structure Route where
  pfx : String
  worker : String
deriving DecidableEq, Repr

/-- A worker definition as stored by `applyInit`:
`{ url, mode, type, config }`.  `config` is an opaque payload forwarded
verbatim in `worker.init`; an association list stands in for the object. -/
structure WorkerDef where
  url : String
  mode : String
  type : String
  config : List (String × String)
deriving DecidableEq, Repr

/-- An arbitrary element of the `routes` array of a `control.init`
message.  `obj pfx? worker?` is an object whose `prefix` / `worker`
fields are strings exactly when the options are `some`; `nonObj` is any
non-object element (both are dropped by `normalizeRoutes`). -/
inductive RawRoute where
  | obj (pfx? : Option String) (worker? : Option String)
  | nonObj
deriving DecidableEq, Repr

/-- An arbitrary value of the `workers` object of a `control.init`
message, with the same `Option`-encodes-the-typeof-check convention. -/
inductive RawWorkerDef where
  | obj (url? mode? type? : Option String) (config? : Option (List (String × String)))
  | nonObj
deriving DecidableEq, Repr

/-- A live worker session (`info` in `ensureWorker`); `startedAt` is
wall clock and untracked, the channel handle is implicit (posts to the
channel appear as `OutMsg.toWorker` outputs). -/
structure WorkerInfo where
  name : String
  mode : String
  ready : Bool
deriving DecidableEq, Repr

/-- A pending-table entry: `{ workerName, timeoutId }`. -/
structure PendingEntry where
  workerName : String
  timeoutId : Nat
deriving DecidableEq, Repr

/-- The router's global mutable state.  `liveTimers` maps each armed
(not yet fired, not yet cleared) `setTimeout` handle to the request id
its callback captured; `nextTimerId` is the allocation counter. -/
structure RouterState where
  requestTimeoutMs : Nat
  routes : List Route
  workerDefs : List (String × WorkerDef)
  workers : List (String × WorkerInfo)
  pending : List (String × PendingEntry)
  activeLegacyByWorker : List (String × String)
  liveTimers : List (Nat × String)
  nextTimerId : Nat
deriving DecidableEq, Repr

/-- The `response` object of a `worker.response` message.  `status?` is
`some n` exactly when `Number.isFinite(response.status)` holds, `body?`
is `some` exactly when the body is a string, `headers?` exactly when the
headers are an object. -/
structure WorkerResponse where
  status? : Option Int
  body? : Option String
  headers? : Option (List (String × String))
deriving DecidableEq, Repr

/-- Inbound messages from a worker, as discriminated by the two protocol
handlers: `kind` = `worker.ready` / `worker.event` / `worker.response`
for the native protocol, `type` = `log-batch` / `status` for the legacy
protocol; `unrecognized` covers non-objects and every other shape (all
handlers drop it silently). -/
inductive WorkerMsg where
  | ready
  | wEvent (id? : Option String) (event? : Option String)
  | wResponse (id? : Option String) (response? : Option WorkerResponse)
  | logBatch
  | status (state? : Option String) (error? : Option String)
  | unrecognized
deriving DecidableEq, Repr

/-- An inbound `hx.request` message; `Option` fields encode the
`typeof === "string"` checks on `id`, `path`, `method` and `body`. -/
structure HxRequest where
  id? : Option String
  path? : Option String
  method? : Option String
  body? : Option String
deriving DecidableEq, Repr

/-- The payload of a `control.init` message. `routes?` is `some` exactly
when `Array.isArray(msg.routes)`, `workers?` exactly when
`isObject(msg.workers)` (listed in `Object.entries` order), and
`requestTimeoutMs?` is `some n` exactly when `msg.requestTimeoutMs` is a
finite number `> 0` with `Math.floor` value `n`. -/
structure InitMsg where
  routes? : Option (List RawRoute)
  workers? : Option (List (String × RawWorkerDef))
  requestTimeoutMs? : Option Nat
deriving DecidableEq, Repr

/-- Messages the router posts to a worker channel. -/
inductive WorkerOutMsg where
  | workerInit (worker : String) (config : List (String × String))
  | workerRequest (id : String) (method : String) (path : String) (body : String)
  | legacyRun
deriving DecidableEq, Repr

/-- Messages the router posts to the caller-facing boundary, plus posts
to worker channels, in emission order. -/
inductive OutMsg where
  | hxResponse (id : String) (status : Int) (body : String)
      (headers : List (String × String))
  | protocolError (code : String) (message : String) (id : Option String)
  | routerEvent (id : Option String) (event : String)
  | toWorker (workerName : String) (wmsg : WorkerOutMsg)
  | controlReady (id : Option String) (routes : List Route)
      (workerCount : Nat) (requestTimeoutMs : Nat)
  | controlPong (id : Option String)
deriving DecidableEq, Repr

/-- The comparison the source's route sort induces: the comparator
`(a, b) => b.prefix.length - a.prefix.length` orders `a` no later than
`b` exactly when `b.prefix.length <= a.prefix.length`. -/
def routeGE (a b : Route) : Prop :=
  b.pfx.length ≤ a.pfx.length

instance : DecidableRel routeGE :=
  fun a b => Nat.decLe b.pfx.length a.pfx.length

instance : IsTotal Route routeGE :=
  ⟨fun a b => by unfold routeGE; exact Nat.le_total _ _⟩

instance : IsTrans Route routeGE :=
  ⟨fun _ _ _ hab hbc => by unfold routeGE at *; omega⟩

/-- The filter step of `normalizeRoutes`: keep objects whose `prefix`
and `worker` fields are strings. -/
def rawRouteAccept : RawRoute → Option Route
  | .obj (some p) (some w) => some ⟨p, w⟩
  | _ => none

/-- `normalizeRoutes`: drop malformed entries, then sort by descending
prefix length.  JS `Array.prototype.sort` is stable, and a stable sort
by a total preorder has a unique result, here given by Mathlib's stable
`insertionSort`. -/
def normalizeRoutes (raw : List RawRoute) : List Route :=
  List.insertionSort routeGE (raw.filterMap rawRouteAccept)

/-- The body of the `applyInit` worker loop: an entry whose value is an
object with a string `url` is written into the definition map with
`Map.set` (defaulting `mode` / `type` / `config`); any other entry is
skipped (`continue`). -/
def applyInitWorkerStep (defs : List (String × WorkerDef))
    (e : String × RawWorkerDef) : List (String × WorkerDef) :=
  match e.2 with
  | .obj (some url) mode? type? config? =>
      mapSet defs e.1
        ⟨url, mode?.getD "protocol", type?.getD "classic", config?.getD []⟩
  | _ => defs

/-- `applyInit`: replace the route list when `msg.routes` is an array,
fold every well-formed worker definition into the existing map with
`Map.set` (the map is never cleared), and adopt a positive finite
timeout. -/
def applyInit (s : RouterState) (msg : InitMsg) : RouterState :=
  let s1 :=
    match msg.routes? with
    | some rs => { s with routes := normalizeRoutes rs }
    | none => s
  let s2 :=
    match msg.workers? with
    | some ws =>
        { s1 with workerDefs := ws.foldl applyInitWorkerStep s1.workerDefs }
    | none => s1
  match msg.requestTimeoutMs? with
  | some n => { s2 with requestTimeoutMs := n }
  | none => s2

/-- `matchRoute`: first route in the (sorted) route list whose prefix is
a literal prefix of the path, or `none`. -/
def matchRoute (routes : List Route) (path : String) : Option Route :=
  match routes with
  | [] => none
  | route :: rest =>
      if jsStartsWith path route.pfx then some route else matchRoute rest path

/-- Content-Type header attached to every router-generated response. -/
def ctHtml : List (String × String) :=
  [("Content-Type", "text/html; charset=utf-8")]

/-- Body of the 409 busy response of `dispatchLegacyLiboqsRequest`. -/
def busyBody (current : String) : String :=
  "<div class=\"info\">liboqs worker is busy with request '" ++
    escapeHtml current ++ "'.</div>"

/-- Body of the 404 response for a non-run path in the legacy adapter. -/
def legacyPathBody : String :=
  "<div class=\"fail\">Legacy liboqs adapter only supports /hx/tests/liboqs/run.</div>"

/-- Body of the 202 accepted response of the legacy adapter. -/
def legacyStartedBody (worker : String) : String :=
  "<div class=\"info\">liboqs run started in warm worker '" ++
    escapeHtml worker ++ "'.</div>"

/-- Body of the 503 not-ready response of `dispatchProtocolRequest`. -/
def warmupBody (worker : String) : String :=
  "<div class=\"info\">Worker '" ++ escapeHtml worker ++
    "' is still warming up.</div>"

/-- Body of the 504 timeout response. -/
def timeoutBody (ms : Nat) : String :=
  "<div class=\"fail\">Request timed out in router after " ++ toString ms ++
    "ms.</div>"

/-- Body of the 404 no-route response of `handleHxRequest`. -/
def noRouteBody (path : String) : String :=
  "<div class=\"fail\">No worker route for path '" ++ escapeHtml path ++
    "'.</div>"

/-- Body of the 400 missing-path response of `handleHxRequest`. -/
def missingPathBody : String :=
  "<div class=\"fail\">Missing request path.</div>"

/-- Body of the 500 undefined-worker response of `handleHxRequest`. -/
def undefinedWorkerBody (worker : String) : String :=
  "<div class=\"fail\">Route targets undefined worker '" ++
    escapeHtml worker ++ "'.</div>"

/-- Body of the 500 caught-exception response of `handleHxRequest`. -/
def dispatchErrorBody (emsg : String) : String :=
  "<div class=\"fail\">Router dispatch error: " ++ escapeHtml emsg ++ "</div>"

/-- Message text of the `ORPHAN_RESPONSE` protocol error. -/
def orphanText : String :=
  "Received worker.response for unknown request id"

/-- `clearPending`: look up the pending entry, cancel its timer
(`clearTimeout`), and delete the entry; a no-op when no entry exists. -/
def clearPending (s : RouterState) (requestId : String) : RouterState :=
  match mapGet s.pending requestId with
  | none => s
  | some entry =>
      { s with
        pending := mapDelete s.pending requestId,
        liveTimers := mapDelete s.liveTimers entry.timeoutId }

/-- `handleProtocolWorkerMessage`: the native-protocol worker-to-router
handler. -/
def handleProtocolWorkerMessage (s : RouterState) (info : WorkerInfo)
    (msg : WorkerMsg) : RouterState × List OutMsg :=
  match msg with
  | .ready =>
      ({ s with workers := mapSet s.workers info.name { info with ready := true } },
        [.routerEvent none "worker.ready"])
  | .wEvent id? event? =>
      (s, [.routerEvent (jsStrOrNull id?)
            (match event? with
             | some e => if e = "" then "worker.event" else e
             | none => "worker.event")])
  | .wResponse id? response? =>
      match jsStrOrNull id? with
      | none => (s, [.protocolError "ORPHAN_RESPONSE" orphanText none])
      | some requestId =>
          if mapHas s.pending requestId then
            let response := response?.getD ⟨none, none, none⟩
            (clearPending s requestId,
              [.hxResponse requestId (response.status?.getD 500)
                (response.body?.getD "") (response.headers?.getD [])])
          else
            (s, [.protocolError "ORPHAN_RESPONSE" orphanText (some requestId)])
  | _ => (s, [])

/-- `handleLegacyLiboqsMessage`: the legacy liboqs worker-to-router
handler (`log-batch` and `status` messages). -/
def handleLegacyLiboqsMessage (s : RouterState) (info : WorkerInfo)
    (msg : WorkerMsg) : RouterState × List OutMsg :=
  match msg with
  | .logBatch =>
      (s, [.routerEvent (jsStrOrNull (mapGet s.activeLegacyByWorker info.name))
            "legacy.log_batch"])
  | .status state? _ =>
      let requestId := jsStrOrNull (mapGet s.activeLegacyByWorker info.name)
      let out := [OutMsg.routerEvent requestId "legacy.status"]
      if state? = some "done" ∨ state? = some "error" then
        ({ s with activeLegacyByWorker := mapDelete s.activeLegacyByWorker info.name },
          out)
      else (s, out)
  | _ => (s, [])

/-- `handleWorkerMessage`: mode dispatch between the two handlers. -/
def handleWorkerMessage (s : RouterState) (info : WorkerInfo)
    (msg : WorkerMsg) : RouterState × List OutMsg :=
  if info.mode = "legacy-liboqs" then handleLegacyLiboqsMessage s info msg
  else handleProtocolWorkerMessage s info msg

/-- `ensureWorker`: return the existing session, or create one from the
worker definition (throwing — modelled as `.error` — when no definition
exists; the throw precedes every state mutation).  A freshly created
protocol-mode session starts not ready and receives `worker.init`;
a legacy session starts ready. -/
def ensureWorker (s : RouterState) (workerName : String) :
    Except String (WorkerInfo × RouterState × List OutMsg) :=
  match mapGet s.workers workerName with
  | some info => .ok (info, s, [])
  | none =>
      match mapGet s.workerDefs workerName with
      | none => .error ("No worker definition for '" ++ workerName ++ "'")
      | some wdef =>
          let info : WorkerInfo :=
            ⟨workerName, wdef.mode, wdef.mode = "legacy-liboqs"⟩
          let outs :=
            if wdef.mode = "protocol" then
              [OutMsg.toWorker workerName (.workerInit workerName wdef.config)]
            else []
          .ok (info, { s with workers := mapSet s.workers workerName info }, outs)

/-- The body of the `setTimeout` callback armed by
`dispatchProtocolRequest`, executed when a live timer fires: the timer
is spent, the captured request id's pending entry is cleared, and a 504
response is emitted unconditionally. -/
def fireTimer (s : RouterState) (timerId : Nat) : RouterState × List OutMsg :=
  match mapGet s.liveTimers timerId with
  | none => (s, [])
  | some requestId =>
      let s1 := { s with liveTimers := mapDelete s.liveTimers timerId }
      let s2 := clearPending s1 requestId
      (s2, [.hxResponse requestId 504 (timeoutBody s.requestTimeoutMs) ctHtml])

/-- `dispatchProtocolRequest`: ensure the session; 503 while not ready
(no pending entry); otherwise arm a timeout timer, register the pending
entry (`Map.set`, with no duplicate-id check), and forward the enveloped
request to the worker. -/
def dispatchProtocolRequest (s : RouterState) (requestId : String)
    (route : Route) (method path : String) (body? : Option String) :
    Except String (RouterState × List OutMsg) :=
  match ensureWorker s route.worker with
  | .error e => .error e
  | .ok (info, s1, outs) =>
      if !info.ready then
        .ok (s1, outs ++ [.hxResponse requestId 503 (warmupBody route.worker) ctHtml])
      else
        let timeoutId := s1.nextTimerId
        let s2 :=
          { s1 with
            nextTimerId := s1.nextTimerId + 1,
            liveTimers := s1.liveTimers ++ [(timeoutId, requestId)],
            pending := mapSet s1.pending requestId ⟨route.worker, timeoutId⟩ }
        .ok (s2, outs ++
          [.toWorker route.worker (.workerRequest requestId method path (body?.getD ""))])

/-- `dispatchLegacyLiboqsRequest`: ensure the session; 409 when the
legacy slot is truthy (bound), before any path check; 404 for any path
other than the run endpoint; otherwise bind the slot, send `run`, and
acknowledge with 202. -/
def dispatchLegacyLiboqsRequest (s : RouterState) (requestId : String)
    (route : Route) (_method path : String) (_body? : Option String) :
    Except String (RouterState × List OutMsg) :=
  match ensureWorker s route.worker with
  | .error e => .error e
  | .ok (_, s1, outs) =>
      match jsStrOrNull (mapGet s1.activeLegacyByWorker route.worker) with
      | some current =>
          .ok (s1, outs ++ [.hxResponse requestId 409 (busyBody current) ctHtml])
      | none =>
          if path ≠ "/hx/tests/liboqs/run" then
            .ok (s1, outs ++ [.hxResponse requestId 404 legacyPathBody ctHtml])
          else
            .ok
              ({ s1 with
                  activeLegacyByWorker :=
                    mapSet s1.activeLegacyByWorker route.worker requestId },
                outs ++ [.toWorker route.worker .legacyRun,
                  .hxResponse requestId 202 (legacyStartedBody route.worker) ctHtml])

/-- `handleHxRequest`: id and path validation, route and definition
resolution, method normalization, and dispatch with the catch-all that
converts a thrown dispatch error into a 500 response. -/
def handleHxRequest (s : RouterState) (msg : HxRequest) :
    RouterState × List OutMsg :=
  match validRequestId msg.id? with
  | none =>
      (s, [.protocolError "INVALID_REQUEST"
            "hx.request requires non-empty string id" none])
  | some requestId =>
      match msg.path? with
      | none => (s, [.hxResponse requestId 400 missingPathBody ctHtml])
      | some path =>
          if path.length = 0 then
            (s, [.hxResponse requestId 400 missingPathBody ctHtml])
          else
            match matchRoute s.routes path with
            | none => (s, [.hxResponse requestId 404 (noRouteBody path) ctHtml])
            | some route =>
                match mapGet s.workerDefs route.worker with
                | none =>
                    (s, [.hxResponse requestId 500
                          (undefinedWorkerBody route.worker) ctHtml])
                | some wdef =>
                    let method :=
                      match msg.method? with
                      | some mstr => jsToUpperCase mstr
                      | none => "GET"
                    match
                      (if wdef.mode = "legacy-liboqs" then
                        dispatchLegacyLiboqsRequest s requestId route method path msg.body?
                      else
                        dispatchProtocolRequest s requestId route method path msg.body?) with
                    | .ok r => r
                    | .error e =>
                        (s, [.hxResponse requestId 500 (dispatchErrorBody e) ctHtml])

/-- Inbound messages at the router's own `onmessage` boundary. -/
inductive InMsg where
  | controlInit (id? : Option String) (m : InitMsg)
  | controlPing (id? : Option String)
  | hxRequest (m : HxRequest)
  | unknown (kind : String) (id? : Option String)
deriving Repr

/-- The router's top-level `onmessage` dispatch.  `Map.size` of the
worker-definition map is its length (keys stay unique: the map starts
empty and is only written through `mapSet`). -/
def routerOnMessage (s : RouterState) (msg : InMsg) : RouterState × List OutMsg :=
  match msg with
  | .controlInit id? m =>
      let s' := applyInit s m
      (s', [.controlReady (jsStrOrNull id?) s'.routes s'.workerDefs.length
              s'.requestTimeoutMs])
  | .controlPing id? => (s, [.controlPong (jsStrOrNull id?)])
  | .hxRequest m => handleHxRequest s m
  | .unknown kind id? =>
      (s, [.protocolError "UNKNOWN_KIND"
            ("Unsupported router message kind '" ++ kind ++ "'")
            (jsStrOrNull id?)])

/-- The initial router state (`DEFAULT_TIMEOUT_MS = 30000`, everything
else empty). -/
def initialState : RouterState :=
  ⟨30000, [], [], [], [], [], [], 0⟩

/-- Direct formalization of the specification sentence for route
matching: among the accepted bindings, in declaration order, keep the
binding whose prefix is a literal prefix of the path and is longest,
an earlier binding beating a later one of equal prefix length; `none`
when no accepted binding's prefix is a prefix of the path. -/
def specLongestPrefixMatch (routes : List Route) (path : String) : Option Route :=
  match routes with
  | [] => none
  | r :: rest =>
      let best := specLongestPrefixMatch rest path
      if jsStartsWith path r.pfx then
        match best with
        | none => some r
        | some b => if r.pfx.length < b.pfx.length then some b else some r
      else best

/-! ### Map lemmas -/

theorem mapGet_mapSet_self {κ α : Type} [DecidableEq κ]
    (m : List (κ × α)) (k : κ) (v : α) :
    mapGet (mapSet m k v) k = some v := by
  induction m with
  | nil => simp [mapSet, mapGet]
  | cons e rest ih =>
      by_cases he : e.1 = k
      · simp [mapSet, he, mapGet]
      · simp [mapSet, he, mapGet, ih]

theorem mapGet_mapSet_ne {κ α : Type} [DecidableEq κ]
    (m : List (κ × α)) (k k' : κ) (v : α) (h : k' ≠ k) :
    mapGet (mapSet m k v) k' = mapGet m k' := by
  induction m with
  | nil =>
      have hkk : ¬ k = k' := fun hk => h hk.symm
      simp [mapSet, mapGet, hkk]
  | cons e rest ih =>
      rw [mapSet]
      by_cases he : e.1 = k
      · rw [if_pos he, mapGet, mapGet]
        have hkk : ¬ k = k' := fun hk => h hk.symm
        have hek : ¬ e.1 = k' := by rw [he]; exact hkk
        rw [if_neg hkk, if_neg hek]
      · rw [if_neg he, mapGet, mapGet]
        by_cases he' : e.1 = k'
        · rw [if_pos he', if_pos he']
        · rw [if_neg he', if_neg he', ih]

theorem mapGet_mapDelete_self {κ α : Type} [DecidableEq κ]
    (m : List (κ × α)) (k : κ) :
    mapGet (mapDelete m k) k = none := by
  induction m with
  | nil => simp [mapDelete, mapGet]
  | cons e rest ih =>
      by_cases he : e.1 = k
      · simp [mapDelete, he, ih]
      · simp [mapDelete, he, mapGet, ih]

theorem mapGet_append_left {κ α : Type} [DecidableEq κ]
    {m₁ : List (κ × α)} (m₂ : List (κ × α)) {k : κ} {v : α}
    (h : mapGet m₁ k = some v) :
    mapGet (m₁ ++ m₂) k = some v := by
  induction m₁ with
  | nil => simp [mapGet] at h
  | cons e rest ih =>
      by_cases he : e.1 = k
      · simp [mapGet, he] at h ⊢; exact h
      · simp [mapGet, he] at h ⊢; exact ih h

/-! ### Route matching: matching on the sorted table computes the
longest-prefix-earliest-declared match of the declared table -/

theorem matchRoute_mem {routes : List Route} {path : String} {r : Route}
    (h : matchRoute routes path = some r) : r ∈ routes := by
  induction routes with
  | nil => simp [matchRoute] at h
  | cons b t ih =>
      rw [matchRoute] at h
      by_cases hb : jsStartsWith path b.pfx
      · rw [if_pos hb] at h
        injection h with h
        exact h ▸ List.mem_cons_self b t
      · rw [if_neg hb] at h
        exact List.mem_cons_of_mem _ (ih h)

theorem matchRoute_orderedInsert (path : String) (r : Route) (l : List Route)
    (hl : List.Sorted routeGE l) :
    matchRoute (List.orderedInsert routeGE r l) path =
      (if jsStartsWith path r.pfx then
        match matchRoute l path with
        | none => some r
        | some b => if r.pfx.length < b.pfx.length then some b else some r
      else matchRoute l path) := by
  induction l with
  | nil =>
      by_cases hp : jsStartsWith path r.pfx <;>
        simp [List.orderedInsert, matchRoute, hp]
  | cons b t ih =>
      rcases List.sorted_cons.mp hl with ⟨hbt, ht⟩
      by_cases hrb : routeGE r b
      · rw [List.orderedInsert, if_pos hrb]
        by_cases hp : jsStartsWith path r.pfx
        · rw [matchRoute, if_pos hp, if_pos hp]
          cases hm : matchRoute (b :: t) path with
          | none => rfl
          | some c =>
              have hc : c.pfx.length ≤ b.pfx.length := by
                rcases List.mem_cons.mp (matchRoute_mem hm) with rfl | hct
                · exact le_refl _
                · exact hbt c hct
              have hnc : ¬ r.pfx.length < c.pfx.length := by
                unfold routeGE at hrb; omega
              simp [hnc]
        · rw [matchRoute, if_neg hp, if_neg hp]
      · rw [List.orderedInsert, if_neg hrb]
        have hrblt : r.pfx.length < b.pfx.length := by
          unfold routeGE at hrb; omega
        by_cases hpb : jsStartsWith path b.pfx
        · rw [matchRoute, if_pos hpb]
          conv_rhs => rw [matchRoute, if_pos hpb]
          by_cases hp : jsStartsWith path r.pfx
          · simp [hp, hrblt]
          · simp [hp]
        · rw [matchRoute, if_neg hpb]
          conv_rhs => rw [matchRoute, if_neg hpb]
          exact ih ht

theorem matchRoute_insertionSort (path : String) (l : List Route) :
    matchRoute (List.insertionSort routeGE l) path =
      specLongestPrefixMatch l path := by
  induction l with
  | nil => rfl
  | cons r t ih =>
      rw [List.insertionSort,
        matchRoute_orderedInsert path r _ (List.sorted_insertionSort routeGE t),
        ih, specLongestPrefixMatch]

/-! ### Claim theorems -/

/-- C1: for every route set accepted at initialization and every path,
`matchRoute` on the normalized (descending-prefix-length, stable) table
returns exactly the accepted binding with the longest prefix that is a
literal prefix of the path — no-match when no accepted prefix is a
prefix — with the earliest-declared binding winning equal-length ties,
as computed by `specLongestPrefixMatch` over the accepted bindings in
declaration order. -/
theorem C1_matchRoute_longest_prefix (raw : List RawRoute) (path : String) :
    matchRoute (normalizeRoutes raw) path =
      specLongestPrefixMatch (raw.filterMap rawRouteAccept) path :=
  matchRoute_insertionSort path (raw.filterMap rawRouteAccept)

/-- C5: a request dispatched to a native-mode worker whose session is
not ready yields exactly one terminal 503 response and leaves the state
— in particular the pending table — unchanged: no pending entry and no
timer is created. -/
theorem C5_not_ready_503_no_pending (s : RouterState) (requestId : String)
    (route : Route) (method path : String) (body? : Option String)
    (info : WorkerInfo)
    (hw : mapGet s.workers route.worker = some info)
    (hnr : info.ready = false) :
    dispatchProtocolRequest s requestId route method path body? =
      .ok (s, [.hxResponse requestId 503 (warmupBody route.worker) ctHtml]) := by
  simp only [dispatchProtocolRequest, ensureWorker, hw, hnr,
    Bool.not_false, if_true, List.nil_append]

/-- Concrete state with one not-ready protocol worker session. -/
def cState5 : RouterState :=
  { initialState with workers := [("w", ⟨"w", "protocol", false⟩)] }

theorem C5_witness :
    dispatchProtocolRequest cState5 "r1" ⟨"/api", "w"⟩ "GET" "/api/x" none =
      .ok (cState5, [.hxResponse "r1" 503 (warmupBody "w") ctHtml]) :=
  C5_not_ready_503_no_pending cState5 "r1" ⟨"/api", "w"⟩ "GET" "/api/x" none
    ⟨"w", "protocol", false⟩ (by decide) (by decide)

/-- C7: an `hx.request` with a valid id and a non-empty path matching no
configured route prefix yields exactly one terminal 404 response
addressed to the request id whose body echoes the offending path with
`&`, `<`, `>`, `"` and `'` HTML-escaped (`noRouteBody` embeds
`escapeHtml path`). -/
theorem C7_no_route_404 (s : RouterState) (msg : HxRequest)
    (requestId path : String)
    (hid : msg.id? = some requestId) (hne : requestId.length > 0)
    (hpath : msg.path? = some path) (hplen : path.length > 0)
    (hmatch : matchRoute s.routes path = none) :
    handleHxRequest s msg =
      (s, [.hxResponse requestId 404 (noRouteBody path) ctHtml]) := by
  have hplen' : ¬ path.length = 0 := by omega
  simp [handleHxRequest, validRequestId, hid, hne, hpath, hplen', hmatch]

theorem C7_witness :
    handleHxRequest
        { initialState with
            routes := normalizeRoutes [.obj (some "/hx") (some "w")] }
        ⟨some "r1", some "/other<'&\">", none, none⟩ =
      ({ initialState with
          routes := normalizeRoutes [.obj (some "/hx") (some "w")] },
        [.hxResponse "r1" 404 (noRouteBody "/other<'&\">") ctHtml]) :=
  C7_no_route_404 _ _ "r1" "/other<'&\">" rfl (by decide) rfl (by decide)
    (by decide)

/-- C8: an `hx.request` whose id is not a non-empty string produces the
`INVALID_REQUEST` protocol-error envelope and nothing else (no
`hx.response` of any kind); an `hx.request` with a valid id whose path
is not a non-empty string produces exactly one terminal 400 response
addressed to that id. -/
theorem C8_request_validation (s : RouterState) (msg : HxRequest) :
    ((msg.id? = none ∨ msg.id? = some "") →
      handleHxRequest s msg =
        (s, [.protocolError "INVALID_REQUEST"
              "hx.request requires non-empty string id" none])) ∧
    (∀ requestId, msg.id? = some requestId → requestId ≠ "" →
      (msg.path? = none ∨ msg.path? = some "") →
      handleHxRequest s msg =
        (s, [.hxResponse requestId 400 missingPathBody ctHtml])) := by
  constructor
  · intro hid
    rcases hid with hid | hid <;>
      simp only [handleHxRequest, validRequestId, hid, String.length,
        List.length_nil, gt_iff_lt, lt_irrefl, if_false]
  · intro requestId hid hne hpath
    have hlen : requestId.length > 0 := by
      rcases requestId with ⟨cs⟩
      cases cs with
      | nil => exact absurd rfl hne
      | cons c cs => simp [String.length]
    have h0 : ("" : String).length = 0 := rfl
    rcases hpath with hpath | hpath <;>
      simp [handleHxRequest, validRequestId, hid, hlen, hpath, h0]

theorem C8_witness :
    handleHxRequest initialState ⟨none, some "/x", none, none⟩ =
      (initialState,
        [.protocolError "INVALID_REQUEST"
          "hx.request requires non-empty string id" none]) ∧
    handleHxRequest initialState ⟨some "r1", none, none, none⟩ =
      (initialState, [.hxResponse "r1" 400 missingPathBody ctHtml]) :=
  ⟨(C8_request_validation initialState ⟨none, some "/x", none, none⟩).1
      (Or.inl rfl),
   (C8_request_validation initialState ⟨some "r1", none, none, none⟩).2
      "r1" rfl (by decide) (Or.inl rfl)⟩

/-- C2: when the timeout timer of a still-pending native request fires,
the pending entry is cleared and exactly one terminal 504 response
addressed to that request id is emitted; a `worker.response` for the
same id arriving afterwards finds no pending entry, is reported as an
`ORPHAN_RESPONSE` protocol error, and produces no second `hx.response`
(the handler's whole output is the error envelope, and the state is
untouched). -/
theorem C2_timeout_504_then_orphan (s : RouterState) (requestId : String)
    (entry : PendingEntry) (info : WorkerInfo)
    (response? : Option WorkerResponse)
    (hp : mapGet s.pending requestId = some entry)
    (ht : mapGet s.liveTimers entry.timeoutId = some requestId)
    (hne : requestId ≠ "") :
    (fireTimer s entry.timeoutId).2 =
        [.hxResponse requestId 504 (timeoutBody s.requestTimeoutMs) ctHtml] ∧
    mapGet (fireTimer s entry.timeoutId).1.pending requestId = none ∧
    handleProtocolWorkerMessage (fireTimer s entry.timeoutId).1 info
        (.wResponse (some requestId) response?) =
      ((fireTimer s entry.timeoutId).1,
        [.protocolError "ORPHAN_RESPONSE" orphanText (some requestId)]) := by
  have hp1 : mapGet
      ({ s with liveTimers := mapDelete s.liveTimers entry.timeoutId } :
        RouterState).pending requestId = some entry := hp
  have hfire : fireTimer s entry.timeoutId =
      ({ s with
          liveTimers := mapDelete
            (mapDelete s.liveTimers entry.timeoutId) entry.timeoutId,
          pending := mapDelete s.pending requestId },
        [.hxResponse requestId 504 (timeoutBody s.requestTimeoutMs) ctHtml]) := by
    simp only [fireTimer, ht, clearPending, hp1]
  have hnone : mapGet (mapDelete s.pending requestId) requestId = none :=
    mapGet_mapDelete_self s.pending requestId
  refine ⟨by rw [hfire], by rw [hfire]; exact hnone, ?_⟩
  rw [hfire]
  simp only [handleProtocolWorkerMessage, jsStrOrNull, hne, if_false,
    mapHas, hnone, Option.isSome_none, Bool.false_eq_true, if_false]

/-- Concrete state with one ready protocol worker and one pending
request `r1` whose timeout timer 0 is armed. -/
def cState2 : RouterState :=
  { initialState with
      workers := [("w", ⟨"w", "protocol", true⟩)],
      pending := [("r1", ⟨"w", 0⟩)],
      liveTimers := [(0, "r1")],
      nextTimerId := 1 }

theorem C2_witness :
    (fireTimer cState2 0).2 =
        [.hxResponse "r1" 504 (timeoutBody 30000) ctHtml] ∧
    mapGet (fireTimer cState2 0).1.pending "r1" = none ∧
    handleProtocolWorkerMessage (fireTimer cState2 0).1 ⟨"w", "protocol", true⟩
        (.wResponse (some "r1") (some ⟨some 200, some "late", none⟩)) =
      ((fireTimer cState2 0).1,
        [.protocolError "ORPHAN_RESPONSE" orphanText (some "r1")]) :=
  C2_timeout_504_then_orphan cState2 "r1" ⟨"w", 0⟩ ⟨"w", "protocol", true⟩
    (some ⟨some 200, some "late", none⟩) (by decide) (by decide) (by decide)

/-- C6: a `worker.response` whose id matches a pending entry clears the
entry — the pending table no longer holds the id and its timeout timer
is cancelled (no longer live) — and emits exactly one terminal
`hx.response` to the caller carrying the worker-supplied status, body
and headers, with status 500 substituted when the response carries no
finite numeric status (and the empty body / empty headers when those are
not a string / not an object). -/
theorem C6_matching_response_resolves (s : RouterState) (info : WorkerInfo)
    (requestId : String) (entry : PendingEntry)
    (response? : Option WorkerResponse)
    (hp : mapGet s.pending requestId = some entry)
    (hne : requestId ≠ "") :
    handleProtocolWorkerMessage s info (.wResponse (some requestId) response?) =
      (clearPending s requestId,
        [.hxResponse requestId
          ((response?.getD ⟨none, none, none⟩).status?.getD 500)
          ((response?.getD ⟨none, none, none⟩).body?.getD "")
          ((response?.getD ⟨none, none, none⟩).headers?.getD [])]) ∧
    mapGet (clearPending s requestId).pending requestId = none ∧
    mapGet (clearPending s requestId).liveTimers entry.timeoutId = none := by
  have hhas : mapHas s.pending requestId = true := by
    simp [mapHas, hp]
  have hclear : clearPending s requestId =
      { s with
          pending := mapDelete s.pending requestId,
          liveTimers := mapDelete s.liveTimers entry.timeoutId } := by
    simp only [clearPending, hp]
  refine ⟨?_, ?_, ?_⟩
  · simp only [handleProtocolWorkerMessage, jsStrOrNull, hne, if_false, hhas,
      if_true]
  · rw [hclear]
    exact mapGet_mapDelete_self s.pending requestId
  · rw [hclear]
    exact mapGet_mapDelete_self s.liveTimers entry.timeoutId

theorem C6_witness :
    handleProtocolWorkerMessage cState2 ⟨"w", "protocol", true⟩
        (.wResponse (some "r1") (some ⟨none, some "<p>ok</p>", none⟩)) =
      (clearPending cState2 "r1",
        [.hxResponse "r1" 500 "<p>ok</p>" []]) ∧
    mapGet (clearPending cState2 "r1").pending "r1" = none ∧
    mapGet (clearPending cState2 "r1").liveTimers 0 = none :=
  C6_matching_response_resolves cState2 ⟨"w", "protocol", true⟩ "r1" ⟨"w", 0⟩
    (some ⟨none, some "<p>ok</p>", none⟩) (by decide) (by decide)

/-- Folding worker entries none of which carries a given name leaves
that name's definition-map binding untouched. -/
theorem mapGet_foldl_workerStep_absent (ws : List (String × RawWorkerDef))
    (defs : List (String × WorkerDef)) (name : String)
    (h : ∀ e ∈ ws, e.1 ≠ name) :
    mapGet (ws.foldl applyInitWorkerStep defs) name = mapGet defs name := by
  induction ws generalizing defs with
  | nil => rfl
  | cons e rest ih =>
      rw [List.foldl_cons, ih _ (fun x hx => h x (List.mem_cons_of_mem _ hx))]
      have hne : e.1 ≠ name := h e (List.mem_cons_self _ _)
      rcases e with ⟨k, d⟩
      match d with
      | .nonObj => rfl
      | .obj none m t c => rfl
      | .obj (some url) m t c =>
          exact mapGet_mapSet_ne defs k name _ (Ne.symm hne)

/-- Concrete first init message: route `/a`, worker `a`. -/
def initMsgA : InitMsg :=
  ⟨some [.obj (some "/a") (some "a")],
   some [("a", .obj (some "/workers/a.js") none none none)], none⟩

/-- Concrete re-init message: route `/b`, worker `b`; it mentions
neither route `/a` nor worker `a`. -/
def initMsgB : InitMsg :=
  ⟨some [.obj (some "/b") (some "b")],
   some [("b", .obj (some "/workers/b.js") none none none)], none⟩

/-- C3 counterexample: the claim says a re-init replaces the
worker-definition map, removing definitions absent from the new
message; but after initializing with worker `a` only and re-initializing
with worker `b` only, worker `a`'s definition is still present —
`applyInit` merges the definition map instead of replacing it. -/
theorem C3_counterexample :
    mapGet (applyInit (applyInit initialState initMsgA) initMsgB).workerDefs
        "a" =
      some ⟨"/workers/a.js", "protocol", "classic", []⟩ := by decide

/-- C3 amended: a later `control.init` replaces the route list entirely
(routes absent from the new message are removed) whenever the new
message carries a routes array, but merges the worker-definition map:
definitions for names absent from the new message are retained, not
removed. -/
theorem C3_amended_routes_replaced_defs_merged (s : RouterState)
    (msg : InitMsg) :
    (∀ rs, msg.routes? = some rs →
      (applyInit s msg).routes = normalizeRoutes rs) ∧
    (∀ name, (∀ ws, msg.workers? = some ws → ∀ e ∈ ws, e.1 ≠ name) →
      mapGet (applyInit s msg).workerDefs name = mapGet s.workerDefs name) := by
  rcases msg with ⟨mr, mw, mt⟩
  constructor
  · intro rs hrs
    simp only at hrs
    subst hrs
    cases mw <;> cases mt <;> simp [applyInit]
  · intro name h
    cases mw with
    | none => cases mr <;> cases mt <;> simp [applyInit]
    | some ws =>
        have hws : ∀ e ∈ ws, e.1 ≠ name := h ws rfl
        cases mr <;> cases mt <;>
          simp [applyInit, mapGet_foldl_workerStep_absent ws _ name hws]

theorem C3_witness :
    (applyInit (applyInit initialState initMsgA) initMsgB).routes =
        normalizeRoutes [.obj (some "/b") (some "b")] ∧
    mapGet (applyInit (applyInit initialState initMsgA) initMsgB).workerDefs
        "a" =
      mapGet (applyInit initialState initMsgA).workerDefs "a" :=
  ⟨(C3_amended_routes_replaced_defs_merged (applyInit initialState initMsgA)
      initMsgB).1 [.obj (some "/b") (some "b")] rfl,
   (C3_amended_routes_replaced_defs_merged (applyInit initialState initMsgA)
      initMsgB).2 "a"
      (by
        intro ws hws e he
        injection hws with hws
        subst hws
        rcases List.mem_singleton.mp he with rfl
        decide)⟩

/-- C4: a request routed to a legacy-mode worker whose legacy slot is
bound to another request id gets exactly one terminal 409 response whose
body embeds the previously-bound id (HTML-escaped), the state — hence
the slot and the not-yet-bound new request — unchanged; the slot is
cleared by a worker `status` of `done` or `error` and by no other
`status`; and once the slot is free a new run request to that worker is
accepted (slot bound, `run` posted, 202 emitted). -/
theorem C4_legacy_conflict_and_release (s : RouterState) (requestId : String)
    (route : Route) (method path : String) (body? : Option String)
    (info : WorkerInfo)
    (hw : mapGet s.workers route.worker = some info) :
    (∀ current,
      jsStrOrNull (mapGet s.activeLegacyByWorker route.worker) = some current →
      current ≠ requestId →
      dispatchLegacyLiboqsRequest s requestId route method path body? =
        .ok (s, [.hxResponse requestId 409 (busyBody current) ctHtml])) ∧
    (∀ state? error?, (state? = some "done" ∨ state? = some "error") →
      mapGet (handleLegacyLiboqsMessage s info
          (.status state? error?)).1.activeLegacyByWorker info.name = none) ∧
    (∀ state? error?, ¬ (state? = some "done" ∨ state? = some "error") →
      (handleLegacyLiboqsMessage s info (.status state? error?)).1 = s) ∧
    (jsStrOrNull (mapGet s.activeLegacyByWorker route.worker) = none →
      path = "/hx/tests/liboqs/run" →
      dispatchLegacyLiboqsRequest s requestId route method path body? =
        .ok ({ s with activeLegacyByWorker :=
                mapSet s.activeLegacyByWorker route.worker requestId },
          [.toWorker route.worker .legacyRun,
            .hxResponse requestId 202 (legacyStartedBody route.worker) ctHtml])) := by
  refine ⟨?_, ?_, ?_, ?_⟩
  · intro current hcur _
    simp [dispatchLegacyLiboqsRequest, ensureWorker, hw, hcur]
  · intro state? error? hterm
    simp only [handleLegacyLiboqsMessage, if_pos hterm]
    exact mapGet_mapDelete_self s.activeLegacyByWorker info.name
  · intro state? error? hterm
    simp only [handleLegacyLiboqsMessage, if_neg hterm]
  · intro hfree hpath
    subst hpath
    simp [dispatchLegacyLiboqsRequest, ensureWorker, hw, hfree]

/-- Concrete legacy state: worker `liboqs` live, slot bound to `r1`. -/
def cStateBusy : RouterState :=
  { initialState with
      workers := [("liboqs", ⟨"liboqs", "legacy-liboqs", true⟩)],
      activeLegacyByWorker := [("liboqs", "r1")] }

/-- Concrete legacy state: worker `liboqs` live, slot free. -/
def cStateFree : RouterState :=
  { initialState with
      workers := [("liboqs", ⟨"liboqs", "legacy-liboqs", true⟩)] }

theorem C4_witness :
    dispatchLegacyLiboqsRequest cStateBusy "r2" ⟨"/hx/tests/liboqs", "liboqs"⟩
        "GET" "/hx/tests/liboqs/run" none =
      .ok (cStateBusy, [.hxResponse "r2" 409 (busyBody "r1") ctHtml]) ∧
    mapGet (handleLegacyLiboqsMessage cStateBusy
        ⟨"liboqs", "legacy-liboqs", true⟩
        (.status (some "done") none)).1.activeLegacyByWorker "liboqs" = none ∧
    (handleLegacyLiboqsMessage cStateBusy ⟨"liboqs", "legacy-liboqs", true⟩
        (.status (some "running") none)).1 = cStateBusy ∧
    dispatchLegacyLiboqsRequest cStateFree "r2" ⟨"/hx/tests/liboqs", "liboqs"⟩
        "GET" "/hx/tests/liboqs/run" none =
      .ok ({ cStateFree with
              activeLegacyByWorker := mapSet cStateFree.activeLegacyByWorker
                "liboqs" "r2" },
        [.toWorker "liboqs" .legacyRun,
          .hxResponse "r2" 202 (legacyStartedBody "liboqs") ctHtml]) :=
  ⟨(C4_legacy_conflict_and_release cStateBusy "r2" ⟨"/hx/tests/liboqs", "liboqs"⟩
      "GET" "/hx/tests/liboqs/run" none ⟨"liboqs", "legacy-liboqs", true⟩
      (by decide)).1 "r1" (by decide) (by decide),
   (C4_legacy_conflict_and_release cStateBusy "r2" ⟨"/hx/tests/liboqs", "liboqs"⟩
      "GET" "/hx/tests/liboqs/run" none ⟨"liboqs", "legacy-liboqs", true⟩
      (by decide)).2.1 (some "done") none (Or.inl rfl),
   (C4_legacy_conflict_and_release cStateBusy "r2" ⟨"/hx/tests/liboqs", "liboqs"⟩
      "GET" "/hx/tests/liboqs/run" none ⟨"liboqs", "legacy-liboqs", true⟩
      (by decide)).2.2.1 (some "running") none (by decide),
   (C4_legacy_conflict_and_release cStateFree "r2" ⟨"/hx/tests/liboqs", "liboqs"⟩
      "GET" "/hx/tests/liboqs/run" none ⟨"liboqs", "legacy-liboqs", true⟩
      (by decide)).2.2.2 (by decide) rfl⟩

/-- C10: in the legacy adapter the busy check comes before the path
check: while the slot is bound, every request — whatever its path — gets
the 409 conflict response, never the 404 path rejection; the 404 path
rejection is reachable exactly when the slot is free and the path is not
the run endpoint. -/
theorem C10_busy_check_precedes_path_check (s : RouterState)
    (requestId : String) (route : Route) (method : String)
    (body? : Option String) (info : WorkerInfo)
    (hw : mapGet s.workers route.worker = some info) :
    (∀ path current,
      jsStrOrNull (mapGet s.activeLegacyByWorker route.worker) = some current →
      dispatchLegacyLiboqsRequest s requestId route method path body? =
        .ok (s, [.hxResponse requestId 409 (busyBody current) ctHtml])) ∧
    (∀ path,
      jsStrOrNull (mapGet s.activeLegacyByWorker route.worker) = none →
      path ≠ "/hx/tests/liboqs/run" →
      dispatchLegacyLiboqsRequest s requestId route method path body? =
        .ok (s, [.hxResponse requestId 404 legacyPathBody ctHtml])) := by
  constructor
  · intro path current hcur
    simp [dispatchLegacyLiboqsRequest, ensureWorker, hw, hcur]
  · intro path hfree hpath
    simp [dispatchLegacyLiboqsRequest, ensureWorker, hw, hfree, hpath]

theorem C10_witness :
    dispatchLegacyLiboqsRequest cStateBusy "r2" ⟨"/hx/tests/liboqs", "liboqs"⟩
        "GET" "/hx/tests/liboqs/other" none =
      .ok (cStateBusy, [.hxResponse "r2" 409 (busyBody "r1") ctHtml]) ∧
    dispatchLegacyLiboqsRequest cStateFree "r2" ⟨"/hx/tests/liboqs", "liboqs"⟩
        "GET" "/hx/tests/liboqs/other" none =
      .ok (cStateFree, [.hxResponse "r2" 404 legacyPathBody ctHtml]) :=
  ⟨(C10_busy_check_precedes_path_check cStateBusy "r2"
      ⟨"/hx/tests/liboqs", "liboqs"⟩ "GET" none
      ⟨"liboqs", "legacy-liboqs", true⟩ (by decide)).1
      "/hx/tests/liboqs/other" "r1" (by decide),
   (C10_busy_check_precedes_path_check cStateFree "r2"
      ⟨"/hx/tests/liboqs", "liboqs"⟩ "GET" none
      ⟨"liboqs", "legacy-liboqs", true⟩ (by decide)).2
      "/hx/tests/liboqs/other" (by decide) (by decide)⟩

/-- C9: dispatching to a ready native worker while a pending entry for
the same request id already exists performs no duplicate-id check: the
request is not rejected (the only output is the forwarded
`worker.request`), the pending entry is overwritten with the new worker
name and a fresh timer, the previous entry's timer stays live
(uncancelled), and when that old timer later fires it clears the new
entry and emits a 504 response for the id. -/
theorem C9_duplicate_id_overwrites_pending (s : RouterState)
    (requestId : String) (route : Route) (method path : String)
    (body? : Option String) (info : WorkerInfo) (oldEntry : PendingEntry)
    (hw : mapGet s.workers route.worker = some info)
    (hready : info.ready = true)
    (hp : mapGet s.pending requestId = some oldEntry)
    (ht : mapGet s.liveTimers oldEntry.timeoutId = some requestId) :
    ∃ s1,
      dispatchProtocolRequest s requestId route method path body? =
        .ok (s1, [.toWorker route.worker
          (.workerRequest requestId method path (body?.getD ""))]) ∧
      mapGet s1.pending requestId = some ⟨route.worker, s.nextTimerId⟩ ∧
      mapGet s1.liveTimers oldEntry.timeoutId = some requestId ∧
      (fireTimer s1 oldEntry.timeoutId).2 =
        [.hxResponse requestId 504 (timeoutBody s.requestTimeoutMs) ctHtml] ∧
      mapGet (fireTimer s1 oldEntry.timeoutId).1.pending requestId = none := by
  refine ⟨{ s with
      nextTimerId := s.nextTimerId + 1,
      liveTimers := s.liveTimers ++ [(s.nextTimerId, requestId)],
      pending := mapSet s.pending requestId ⟨route.worker, s.nextTimerId⟩ },
    ?_, ?_, ?_, ?_, ?_⟩
  · simp [dispatchProtocolRequest, ensureWorker, hw, hready]
  · exact mapGet_mapSet_self s.pending requestId _
  · exact mapGet_append_left _ ht
  · simp only [fireTimer, mapGet_append_left _ ht]
  · have hnew : mapGet (mapSet s.pending requestId
        (⟨route.worker, s.nextTimerId⟩ : PendingEntry)) requestId =
        some ⟨route.worker, s.nextTimerId⟩ :=
      mapGet_mapSet_self s.pending requestId _
    simp only [fireTimer, mapGet_append_left _ ht, clearPending, hnew]
    exact mapGet_mapDelete_self _ requestId

theorem C9_witness :
    ∃ s1,
      dispatchProtocolRequest cState2 "r1" ⟨"/api", "w"⟩ "GET" "/api/x" none =
        .ok (s1, [.toWorker "w" (.workerRequest "r1" "GET" "/api/x" "")]) ∧
      mapGet s1.pending "r1" = some ⟨"w", 1⟩ ∧
      mapGet s1.liveTimers 0 = some "r1" ∧
      (fireTimer s1 0).2 =
        [.hxResponse "r1" 504 (timeoutBody 30000) ctHtml] ∧
      mapGet (fireTimer s1 0).1.pending "r1" = none :=
  C9_duplicate_id_overwrites_pending cState2 "r1" ⟨"/api", "w"⟩ "GET" "/api/x"
    none ⟨"w", "protocol", true⟩ ⟨"w", 0⟩ (by decide) (by decide) (by decide)
    (by decide)
